import Mathlib

/-!
Shallow embedding of the DirectWriteCustomFontSets sample
(Samples/DirectWriteCustomFontSets/cpp/CustomFontSetManager.cpp).

The sample's own logic is glue around the DirectWrite platform API.  The
platform objects (factory, in-memory font file loader, font set builder,
font set, font face references, localized string lists) are modelled as
explicit data; the manager's methods are translated line by line from the
C++ source.  Side effects on the platform (loader registration, download
queue requests) are made explicit as state components or event lists.
Exceptions thrown through DX::ThrowIfFailed are modelled with Except /
an Option error component; dereferencing the null m_customFontSet pointer
is modelled as the error value HResultError.nullDeref.
-/

set_option linter.unusedVariables false

namespace DWriteCustomFontSets

/-- Model of DWRITE_LOCALITY: whether a font face reference's underlying
data is available locally.  INCOMPLETE models DWRITE_LOCALITY_PARTIAL. -/
inductive DWRITE_LOCALITY where
  | REMOTE
  | INCOMPLETE
  | LOCAL
deriving DecidableEq, Repr

/-- Model of the error conditions surfaced by DX::ThrowIfFailed in the
translated methods.  nullDeref marks dereferencing the null
m_customFontSet pointer (undefined behavior in the C++). -/
inductive HResultError where
  | fileFormat
  | invalidArg
  | remoteFont
  | nullDeref
deriving DecidableEq, Repr

/-- Model of IDWriteLocalizedStrings: a list of (locale name, string)
pairs, as used by GetInformationalStrings / FindLocaleName / GetString. -/
structure LocalizedStrings where
  entries : List (String × String)
deriving DecidableEq, Repr

/-- Model of IDWriteFontFace3 as far as the sample reads it: the
FULL_NAME informational strings (none models exists == FALSE) and the
xHeight field of DWRITE_FONT_METRICS1. -/
structure FontFace where
  fullNameStrings : Option LocalizedStrings
  xHeight : Nat
deriving DecidableEq, Repr

/-- Model of IDWriteFontFaceReference: a locality plus the font face the
reference resolves to once the data is available. -/
structure FontFaceReference where
  locality : DWRITE_LOCALITY
  face : FontFace
deriving DecidableEq, Repr

/-- Model of IDWriteFontSet: the ordered entries produced by the font set
builder. -/
structure FontSet where
  faces : List FontFaceReference
deriving DecidableEq, Repr

/-- Model of IDWriteFontSet::GetFontCount. -/
def FontSet.GetFontCount (fs : FontSet) : Nat :=
  fs.faces.length

/-- Model of the raw bytes of one in-memory source as the platform parser
sees them: either valid font data parsing to a list of fonts (a
collection may hold several), or data AddFontFile rejects with
DWRITE_E_FILEFORMAT. -/
inductive FontData where
  | malformed
  | valid (faces : List FontFace)
deriving DecidableEq, Repr

/-- Model of MemoryFontInfo (fontData + fontDataSize): the buffer is kept
abstract, carrying only what the platform parse yields. -/
structure MemoryFontInfo where
  fontData : FontData
deriving DecidableEq, Repr

/-- Model of the DirectWrite factory state the sample touches: the ids of
registered font file loaders, plus a counter producing fresh loader ids
for CreateInMemoryFontFileLoader. -/
structure Factory where
  nextLoaderId : Nat
  registeredLoaders : List Nat
deriving DecidableEq, Repr

/-- Model of CustomFontSetManager: the factory, the optional in-memory
font file loader member m_inMemoryFontFileLoader (none models a null
ComPtr), and the optional font set member m_customFontSet (none models
the null pointer before any build). -/
structure CustomFontSetManager where
  dwriteFactory : Factory
  inMemoryFontFileLoader : Option Nat
  customFontSet : Option FontSet
deriving DecidableEq, Repr

/-- Manager state right after the constructor: fresh factory, null loader
member, null font set member. -/
def CustomFontSetManager.mk0 : CustomFontSetManager :=
  { dwriteFactory := { nextLoaderId := 0, registeredLoaders := [] }
    inMemoryFontFileLoader := none
    customFontSet := none }

/-- Model of IDWriteFontSetBuilder1::AddFontFile on one in-memory font
file reference: malformed data fails with DWRITE_E_FILEFORMAT; valid
data appends all fonts of the buffer to the builder, each local (the
data was supplied in memory). -/
def AddFontFile (builder : List FontFaceReference) (fontInfo : MemoryFontInfo) :
    Except HResultError (List FontFaceReference) :=
  match fontInfo.fontData with
  | FontData.malformed => Except.error HResultError.fileFormat
  | FontData.valid faces =>
      Except.ok (builder ++ faces.map fun f =>
        { locality := DWRITE_LOCALITY.LOCAL, face := f })

/-- One of the two source loops of CreateFontSetUsingInMemoryFontData:
adds each source's buffer to the builder in source order, stopping at the
first failure (DX::ThrowIfFailed throws). -/
def addFontFiles (builder : List FontFaceReference) :
    List MemoryFontInfo → Except HResultError (List FontFaceReference)
  | [] => Except.ok builder
  | fontInfo :: rest =>
    match AddFontFile builder fontInfo with
    | Except.error e => Except.error e
    | Except.ok builder2 => addFontFiles builder2 rest

/-- Model of CustomFontSetManager::CreateFontSetUsingInMemoryFontData.
The app resource fonts and the simulated document fonts are the two
source lists (BinaryResources::GetFonts and Document::GetFonts).  The
method creates a fresh in-memory font file loader, registers it with the
factory, adds all app resource buffers then all document buffers to a
font set builder, and finally creates the font set.  The returned pair is
the manager state after the call together with the propagated error, if
any; member mutations made before a throw persist, as in C++. -/
def CreateFontSetUsingInMemoryFontData (m : CustomFontSetManager)
    (appFontResources documentFonts : List MemoryFontInfo) :
    CustomFontSetManager × Option HResultError :=
  let loaderId := m.dwriteFactory.nextLoaderId
  let factoryAfterRegister : Factory :=
    { nextLoaderId := loaderId + 1
      registeredLoaders := m.dwriteFactory.registeredLoaders ++ [loaderId] }
  let mAfterRegister : CustomFontSetManager :=
    { m with dwriteFactory := factoryAfterRegister
             inMemoryFontFileLoader := some loaderId }
  match addFontFiles [] appFontResources with
  | Except.error e => (mAfterRegister, some e)
  | Except.ok builderAfterApp =>
    match addFontFiles builderAfterApp documentFonts with
    | Except.error e => (mAfterRegister, some e)
    | Except.ok builderFinal =>
      ({ mAfterRegister with customFontSet := some { faces := builderFinal } }, none)

/-- Model of CustomFontSetManager::GetFontCount: 0 when m_customFontSet
is null, otherwise the font set's count. -/
def GetFontCount (m : CustomFontSetManager) : Nat :=
  match m.customFontSet with
  | none => 0
  | some fs => fs.GetFontCount

/-- Model of IDWriteLocalizedStrings::FindLocaleName: the index of the
entry for the given locale, or none when exists comes back FALSE. -/
def FindLocaleName (ls : LocalizedStrings) (localeName : String) : Option Nat :=
  ls.entries.findIdx? fun entry => entry.1 = localeName

/-- Model of IDWriteFontFaceReference::CreateFontFace: succeeds with the
referenced face when the data is local, otherwise fails (the data would
first need to be downloaded). -/
def CreateFontFace (r : FontFaceReference) : Except HResultError FontFace :=
  match r.locality with
  | DWRITE_LOCALITY.LOCAL => Except.ok r.face
  | _ => Except.error HResultError.remoteFont

/-- Model of the per-locale value selection performed by
IDWriteFontSet::GetPropertyValues when a language preference is given:
the best match for the requested locale, with fallback to the font's
default (first) variant.  Modelled from the platform contract restated in
the source comments of GetPropertyValuesFromFontSet. -/
def selectPropertyValue (ls : LocalizedStrings) (localeName : String) : Option String :=
  match ls.entries.find? (fun entry => entry.1 = localeName) with
  | some entry => some entry.2
  | none => (ls.entries.head?).map fun entry => entry.2

/-- Model of CustomFontSetManager::GetPropertyValuesFromFontSet for the
FULL_NAME property: dereferences m_customFontSet (null before a build)
and asks the font set for the per-font best-language-match property
values; the returned IDWriteStringList holds the unique values across the
set, modelled with List.dedup.  The dedup and language-preference
behavior of IDWriteFontSet::GetPropertyValues is modelled from the
contract restated in the source comments. -/
def GetPropertyValuesFromFontSet (m : CustomFontSetManager) (localeName : String) :
    Except HResultError (List String) :=
  match m.customFontSet with
  | none => Except.error HResultError.nullDeref
  | some fs =>
      Except.ok
        ((fs.faces.filterMap fun r =>
            (r.face.fullNameStrings).bind fun ls => selectPropertyValue ls localeName).dedup)

/-- Model of CustomFontSetManager::GetFullFontNames: copies every string
out of the IDWriteStringList returned by GetPropertyValuesFromFontSet for
the FULL_NAME property with locale preference en-US. -/
def GetFullFontNames (m : CustomFontSetManager) : Except HResultError (List String) :=
  GetPropertyValuesFromFontSet m ("en-US")

/-- Observable interactions with the platform during GetFontDataDetails:
enqueueing a download request for a font index (fire-and-forget), and
reading the actual font data of a font index. -/
inductive DetailEvent where
  | enqueueDownload (fontIndex : Nat)
  | readFontData (fontIndex : Nat)
deriving DecidableEq, Repr

/-- The first loop of GetFontDataDetails: for each font index in order,
GetFontFaceReference then EnqueueFontDownloadRequest. -/
def enqueueDownloadRequests (fontIndex : Nat) :
    List FontFaceReference → List DetailEvent
  | [] => []
  | _ :: rest =>
      DetailEvent.enqueueDownload fontIndex :: enqueueDownloadRequests (fontIndex + 1) rest

/-- The body of the second loop of GetFontDataDetails for one font:
CreateFontFace, then GetInformationalStrings for the full name.  When the
strings exist, FindLocaleName for en-US picks the index (0 when en-US is
absent) and GetString reads the name; otherwise the report falls back to
the placeholder built from the font set index.  The x-height from
GetMetrics is appended. -/
def fontDetailLine (fontIndex : Nat) (r : FontFaceReference) :
    Except HResultError String :=
  match CreateFontFace r with
  | Except.error e => Except.error e
  | Except.ok fontFace =>
    match fontFace.fullNameStrings with
    | some localizedStrings =>
      let stringIndex := (FindLocaleName localizedStrings ("en-US")).getD 0
      match localizedStrings.entries[stringIndex]? with
      | none => Except.error HResultError.invalidArg
      | some entry =>
          Except.ok (entry.2 ++ ": " ++ "x-height = " ++ toString fontFace.xHeight)
    | none =>
        Except.ok ("Font " ++ toString fontIndex ++ ": " ++ "x-height = "
          ++ toString fontFace.xHeight)

/-- The second loop of GetFontDataDetails: reads each font's data in
index order, collecting one report line per font; a failure propagates
(DX::ThrowIfFailed throws). -/
def detailLinesFrom (fontIndex : Nat) :
    List FontFaceReference → Except HResultError (List DetailEvent × List String)
  | [] => Except.ok ([], [])
  | r :: rest =>
    match fontDetailLine fontIndex r with
    | Except.error e => Except.error e
    | Except.ok line =>
      match detailLinesFrom (fontIndex + 1) rest with
      | Except.error e => Except.error e
      | Except.ok (evs, lines) =>
          Except.ok (DetailEvent.readFontData fontIndex :: evs, line :: lines)

/-- Model of CustomFontSetManager::GetFontDataDetails.  The
cancellationSignaled argument models the state of the HANDLE parameter
(whether the caller's cancellation object has already been signaled).
The method dereferences m_customFontSet, enqueues a download request for
every font of the set, then reads each font's data into one report line.
On success the result carries the ordered platform interaction trace and
the report lines. -/
def GetFontDataDetails (m : CustomFontSetManager) (cancellationSignaled : Bool) :
    Except HResultError (List DetailEvent × List String) :=
  match m.customFontSet with
  | none => Except.error HResultError.nullDeref
  | some fs =>
    let enqueueEvents := enqueueDownloadRequests 0 fs.faces
    match detailLinesFrom 0 fs.faces with
    | Except.error e => Except.error e
    | Except.ok (readEvents, resultVector) =>
        Except.ok (enqueueEvents ++ readEvents, resultVector)

/-- The loop of CustomFontSetManager::CustomFontSetHasRemoteFonts:
returns true at the first font face reference whose locality is not
DWRITE_LOCALITY_LOCAL, false after the loop. -/
def hasRemoteFontsLoop : List FontFaceReference → Bool
  | [] => false
  | r :: rest =>
      if r.locality ≠ DWRITE_LOCALITY.LOCAL then true else hasRemoteFontsLoop rest

/-- Model of CustomFontSetManager::CustomFontSetHasRemoteFonts: it
dereferences m_customFontSet (null before a build) and scans the set. -/
def CustomFontSetHasRemoteFonts (m : CustomFontSetManager) :
    Except HResultError Bool :=
  match m.customFontSet with
  | none => Except.error HResultError.nullDeref
  | some fs => Except.ok (hasRemoteFontsLoop fs.faces)

/-- Observable platform interaction of the destructor. -/
inductive DestructEvent where
  | unregisterLoader (loaderId : Nat)
deriving DecidableEq, Repr

/-- Model of CustomFontSetManager::UnregisterFontFileLoader: guarded by a
null check, and errors from the factory are ignored (the factory simply
removes the loader if present). -/
def UnregisterFontFileLoader (factory : Factory) (fontFileLoader : Option Nat) :
    Factory × List DestructEvent :=
  match fontFileLoader with
  | none => (factory, [])
  | some loaderId =>
      ({ factory with registeredLoaders := factory.registeredLoaders.erase loaderId },
       [DestructEvent.unregisterLoader loaderId])

/-- Model of the CustomFontSetManager destructor: unregisters the
in-memory font file loader member through the null-checked helper. -/
def destructor (m : CustomFontSetManager) : Factory × List DestructEvent :=
  UnregisterFontFileLoader m.dwriteFactory m.inMemoryFontFileLoader

/-- The font face references a list of in-memory sources contributes to
the builder, in source order: the parsed fonts of each valid buffer, all
local. -/
def sourceFaces : List MemoryFontInfo → List FontFaceReference
  | [] => []
  | fontInfo :: rest =>
    (match fontInfo.fontData with
     | FontData.malformed => []
     | FontData.valid faces =>
         faces.map fun f => { locality := DWRITE_LOCALITY.LOCAL, face := f }) ++
    sourceFaces rest

/-- Shape of one successful report line of GetFontDataDetails for the
font at the given index: a name part (the locale-selected full name read
from the font data, or the placeholder built from the font set index when
the full name strings are unavailable) followed by the font's x-height. -/
def DetailLineShape (fontIndex : Nat) (r : FontFaceReference) (line : String) : Prop :=
  ∃ nm x, line = nm ++ ": " ++ "x-height = " ++ toString x ∧
    x = r.face.xHeight ∧
    ((r.face.fullNameStrings = none ∧ nm = "Font " ++ toString fontIndex) ∨
     (∃ ls entry, r.face.fullNameStrings = some ls ∧
        ls.entries[(FindLocaleName ls ("en-US")).getD 0]? = some entry ∧
        nm = entry.2))

/-- A local font face reference with an en-US full name, for concrete
evaluations. -/
def sampleLocalFace : FontFaceReference :=
  { locality := DWRITE_LOCALITY.LOCAL
    face := { fullNameStrings := some { entries := [("en-US", "Sample Font")] }
              xHeight := 500 } }

/-- A local font face reference whose full name strings are unavailable,
for concrete evaluations of the placeholder branch. -/
def namelessLocalFace : FontFaceReference :=
  { locality := DWRITE_LOCALITY.LOCAL
    face := { fullNameStrings := none, xHeight := 450 } }

/-- A local font face reference sharing its full name with
sampleLocalFace, for concrete evaluations of deduplication. -/
def sharedNameFace : FontFaceReference :=
  { locality := DWRITE_LOCALITY.LOCAL
    face := { fullNameStrings := some { entries := [("en-US", "Sample Font")] }
              xHeight := 480 } }

/-- A manager whose font set holds one local font. -/
def builtSingletonManager : CustomFontSetManager :=
  { dwriteFactory := { nextLoaderId := 1, registeredLoaders := [0] }
    inMemoryFontFileLoader := some 0
    customFontSet := some { faces := [sampleLocalFace] } }

/-- A manager whose font set holds two local fonts, one with a full name
and one without. -/
def builtTwoFontManager : CustomFontSetManager :=
  { dwriteFactory := { nextLoaderId := 1, registeredLoaders := [0] }
    inMemoryFontFileLoader := some 0
    customFontSet := some { faces := [sampleLocalFace, namelessLocalFace] } }

/-- The font set of builtTwoFontManager. -/
def fsTwo : FontSet :=
  { faces := [sampleLocalFace, namelessLocalFace] }

/-- The platform interaction trace of GetFontDataDetails on
builtTwoFontManager. -/
def sampleTrace : List DetailEvent :=
  [DetailEvent.enqueueDownload 0, DetailEvent.enqueueDownload 1,
   DetailEvent.readFontData 0, DetailEvent.readFontData 1]

/-- The report lines of GetFontDataDetails on builtTwoFontManager. -/
def sampleLines : List String :=
  ["Sample Font: x-height = 500", "Font 1: x-height = 450"]

/-- A manager whose font set holds two local fonts that share one full
name. -/
def builtSharedNameManager : CustomFontSetManager :=
  { dwriteFactory := { nextLoaderId := 1, registeredLoaders := [0] }
    inMemoryFontFileLoader := some 0
    customFontSet := some { faces := [sampleLocalFace, sharedNameFace] } }

/-- The font set of builtSharedNameManager. -/
def fsShared : FontSet :=
  { faces := [sampleLocalFace, sharedNameFace] }

/-- The manager state after calling CreateFontSetUsingInMemoryFontData
twice on a fresh manager with empty source lists. -/
def managerAfterTwoBuilds : CustomFontSetManager :=
  (CreateFontSetUsingInMemoryFontData
    ((CreateFontSetUsingInMemoryFontData CustomFontSetManager.mk0 [] []).1) [] []).1

/-- A successful pass of the AddFontFile loop appends exactly the faces
contributed by the sources, in source order. -/
theorem addFontFiles_ok :
    ∀ (infos : List MemoryFontInfo) (builder result : List FontFaceReference),
      addFontFiles builder infos = Except.ok result →
      result = builder ++ sourceFaces infos := by
  intro infos
  induction infos with
  | nil =>
    intro builder result h
    simp only [addFontFiles, Except.ok.injEq] at h
    simp [sourceFaces, h]
  | cons fontInfo rest ih =>
    intro builder result h
    cases hd : fontInfo.fontData with
    | malformed => simp [addFontFiles, AddFontFile, hd] at h
    | valid faces =>
      simp only [addFontFiles, AddFontFile, hd] at h
      have hrec := ih _ _ h
      simp [sourceFaces, hd, hrec]

/-- The AddFontFile loop fails with DWRITE_E_FILEFORMAT whenever some
source buffer is malformed. -/
theorem addFontFiles_error_of_malformed :
    ∀ (infos : List MemoryFontInfo),
      (∃ fontInfo ∈ infos, fontInfo.fontData = FontData.malformed) →
      ∀ builder, addFontFiles builder infos = Except.error HResultError.fileFormat := by
  intro infos
  induction infos with
  | nil => intro h; simp at h
  | cons fontInfo rest ih =>
    intro h builder
    cases hd : fontInfo.fontData with
    | malformed => simp [addFontFiles, AddFontFile, hd]
    | valid faces =>
      simp only [addFontFiles, AddFontFile, hd]
      obtain ⟨x, hx, hxm⟩ := h
      rcases List.mem_cons.mp hx with hx0 | hx1
      · rw [hx0] at hxm; rw [hxm] at hd; cases hd
      · exact ih ⟨x, hx1, hxm⟩ _

/-- The AddFontFile loop succeeds when every source buffer is valid. -/
theorem addFontFiles_ok_of_wellFormed :
    ∀ (infos : List MemoryFontInfo),
      (∀ fontInfo ∈ infos, fontInfo.fontData ≠ FontData.malformed) →
      ∀ builder, ∃ result, addFontFiles builder infos = Except.ok result := by
  intro infos
  induction infos with
  | nil => intro _ builder; exact ⟨builder, rfl⟩
  | cons fontInfo rest ih =>
    intro h builder
    cases hd : fontInfo.fontData with
    | malformed =>
      exact absurd hd (h fontInfo (List.mem_cons_self fontInfo rest))
    | valid faces =>
      simp only [addFontFiles, AddFontFile, hd]
      exact ih (fun y hy => h y (List.mem_cons_of_mem _ hy)) _

/-- Every face contributed by an in-memory source is local. -/
theorem sourceFaces_local :
    ∀ (infos : List MemoryFontInfo) (r : FontFaceReference),
      r ∈ sourceFaces infos → r.locality = DWRITE_LOCALITY.LOCAL := by
  intro infos
  induction infos with
  | nil => intro r h; simp [sourceFaces] at h
  | cons fontInfo rest ih =>
    intro r h
    simp only [sourceFaces, List.mem_append] at h
    rcases h with h | h
    · cases hd : fontInfo.fontData with
      | malformed => rw [hd] at h; simp at h
      | valid faces =>
        rw [hd] at h
        simp only [List.mem_map] at h
        obtain ⟨f, _, hf⟩ := h
        rw [← hf]
    · exact ih r h

/-- The scan of CustomFontSetHasRemoteFonts returns true exactly when
some face reference's data is not local. -/
theorem hasRemoteFontsLoop_eq_true_iff :
    ∀ (l : List FontFaceReference),
      hasRemoteFontsLoop l = true ↔ ∃ r ∈ l, r.locality ≠ DWRITE_LOCALITY.LOCAL := by
  intro l
  induction l with
  | nil => simp [hasRemoteFontsLoop]
  | cons r rest ih =>
    by_cases hr : r.locality = DWRITE_LOCALITY.LOCAL
    · simp [hasRemoteFontsLoop, hr, ih]
    · simp [hasRemoteFontsLoop, hr]

/-- A successful CreateFontSetUsingInMemoryFontData assigns
m_customFontSet the faces of all sources, app resources first. -/
theorem createFontSet_ok_customFontSet
    (m m1 : CustomFontSetManager) (app doc : List MemoryFontInfo)
    (h : CreateFontSetUsingInMemoryFontData m app doc = (m1, none)) :
    m1.customFontSet = some { faces := sourceFaces app ++ sourceFaces doc } := by
  cases h1 : addFontFiles [] app with
  | error e =>
    simp [CreateFontSetUsingInMemoryFontData, h1] at h
  | ok b1 =>
    cases h2 : addFontFiles b1 doc with
    | error e =>
      simp [CreateFontSetUsingInMemoryFontData, h1, h2] at h
    | ok b2 =>
      simp only [CreateFontSetUsingInMemoryFontData, h1, h2, Prod.mk.injEq] at h
      have hb1 : b1 = sourceFaces app := by simpa using addFontFiles_ok app [] b1 h1
      have hb2 : b2 = sourceFaces app ++ sourceFaces doc := by
        have := addFontFiles_ok doc b1 b2 h2
        rw [this, hb1]
      rw [← h.1, hb2]

/-- The enqueue loop of GetFontDataDetails requests a download for every
font index of the set, in index order. -/
theorem enqueueDownloadRequests_eq :
    ∀ (faces : List FontFaceReference) (i : Nat),
      enqueueDownloadRequests i faces =
        (List.range faces.length).map fun k => DetailEvent.enqueueDownload (i + k) := by
  intro faces
  induction faces with
  | nil => intro i; simp [enqueueDownloadRequests]
  | cons r rest ih =>
    intro i
    simp only [enqueueDownloadRequests, ih (i + 1), List.length_cons,
      List.range_succ_eq_map, List.map_cons, List.map_map, Nat.add_zero]
    congr 1
    apply List.map_congr_left
    intro k _
    simp only [Function.comp_apply, DetailEvent.enqueueDownload.injEq]
    omega

/-- A successful fontDetailLine has the documented report line shape. -/
theorem fontDetailLine_ok_shape (fontIndex : Nat) (r : FontFaceReference)
    (line : String) (h : fontDetailLine fontIndex r = Except.ok line) :
    DetailLineShape fontIndex r line := by
  cases hloc : r.locality with
  | LOCAL =>
    cases hfn : r.face.fullNameStrings with
    | none =>
      simp only [fontDetailLine, CreateFontFace, hloc, hfn, Except.ok.injEq] at h
      exact ⟨"Font " ++ toString fontIndex, r.face.xHeight, h.symm, rfl,
        Or.inl ⟨hfn, rfl⟩⟩
    | some ls =>
      cases hget : ls.entries[(FindLocaleName ls ("en-US")).getD 0]? with
      | none =>
        simp [fontDetailLine, CreateFontFace, hloc, hfn, hget] at h
      | some entry =>
        simp only [fontDetailLine, CreateFontFace, hloc, hfn, hget,
          Except.ok.injEq] at h
        exact ⟨entry.2, r.face.xHeight, h.symm, rfl,
          Or.inr ⟨ls, entry, hfn, hget, rfl⟩⟩
  | REMOTE => simp [fontDetailLine, CreateFontFace, hloc] at h
  | INCOMPLETE => simp [fontDetailLine, CreateFontFace, hloc] at h

/-- A successful read loop of GetFontDataDetails reads every font in
index order and yields one shaped report line per font. -/
theorem detailLinesFrom_ok :
    ∀ (faces : List FontFaceReference) (i : Nat) (evs : List DetailEvent)
      (lines : List String),
      detailLinesFrom i faces = Except.ok (evs, lines) →
      evs = ((List.range faces.length).map fun k => DetailEvent.readFontData (i + k)) ∧
      lines.length = faces.length ∧
      ∀ k r line, faces[k]? = some r → lines[k]? = some line →
        DetailLineShape (i + k) r line := by
  intro faces
  induction faces with
  | nil =>
    intro i evs lines h
    simp only [detailLinesFrom, Except.ok.injEq, Prod.mk.injEq] at h
    obtain ⟨h1, h2⟩ := h
    subst h1
    subst h2
    refine ⟨by simp, rfl, ?_⟩
    intro k r line hk hline
    simp at hk
  | cons r0 rest ih =>
    intro i evs lines h
    cases hl : fontDetailLine i r0 with
    | error e => simp [detailLinesFrom, hl] at h
    | ok line0 =>
      cases hrest : detailLinesFrom (i + 1) rest with
      | error e => simp [detailLinesFrom, hl, hrest] at h
      | ok p =>
        obtain ⟨evs1, lines1⟩ := p
        simp only [detailLinesFrom, hl, hrest, Except.ok.injEq, Prod.mk.injEq] at h
        obtain ⟨hevs, hlines⟩ := h
        subst hevs
        subst hlines
        obtain ⟨ihevs, ihlen, ihshape⟩ := ih (i + 1) evs1 lines1 hrest
        refine ⟨?_, ?_, ?_⟩
        · rw [ihevs]
          simp only [List.length_cons, List.range_succ_eq_map, List.map_cons,
            List.map_map, Nat.add_zero]
          congr 1
          apply List.map_congr_left
          intro k _
          simp only [Function.comp_apply, DetailEvent.readFontData.injEq]
          omega
        · simp [ihlen]
        · intro k r line hk hline
          cases k with
          | zero =>
            simp only [List.getElem?_cons_zero, Option.some.injEq] at hk hline
            rw [← hk, ← hline, Nat.add_zero]
            exact fontDetailLine_ok_shape i r0 line0 hl
          | succ k2 =>
            simp only [List.getElem?_cons_succ] at hk hline
            have hs := ihshape k2 r line hk hline
            rw [show i + (k2 + 1) = i + 1 + k2 by omega]
            exact hs

/-- Every shaped report line is non-empty. -/
theorem detailLineShape_pos (fontIndex : Nat) (r : FontFaceReference)
    (line : String) (h : DetailLineShape fontIndex r line) : 0 < line.length := by
  obtain ⟨nm, x, hline, -, -⟩ := h
  rw [hline]
  have h2 : (": " : String).length = 2 := rfl
  simp [String.length_append, h2]

/-- C1: GetFontDataDetails does not consult the cancellation signal at
all: its result is the same for any state of the signal, and on a built
font set with an already-fired signal it returns the full one-line-per-
font report instead of the empty sequence promised by the specification
and by the function's own comment. -/
theorem getFontDataDetails_ignores_cancellation :
    (∀ (m : CustomFontSetManager) (sig1 sig2 : Bool),
        GetFontDataDetails m sig1 = GetFontDataDetails m sig2) ∧
    GetFontDataDetails builtSingletonManager true =
      Except.ok ([DetailEvent.enqueueDownload 0, DetailEvent.readFontData 0],
        ["Sample Font: x-height = 500"]) ∧
    (["Sample Font: x-height = 500"] : List String).length = 1 :=
  ⟨fun m sig1 sig2 => rfl, rfl, rfl⟩

/-- C2 counterexample: calling the build operation twice on a fresh
manager registers two loaders, so registration is not idempotent and is
not performed at most once per manager instance. -/
theorem loader_registration_not_idempotent_counterexample :
    managerAfterTwoBuilds.dwriteFactory.registeredLoaders = [0, 1] ∧
    ¬ managerAfterTwoBuilds.dwriteFactory.registeredLoaders.length ≤ 1 := by
  constructor
  · rfl
  · decide

/-- C2 amended: every invocation of CreateFontSetUsingInMemoryFontData
creates a fresh in-memory font file loader and registers it with the
factory, so a second build call performs an additional registration
rather than none. -/
theorem createFontSet_registers_loader_each_call
    (m : CustomFontSetManager) (appFontResources documentFonts : List MemoryFontInfo) :
    ((CreateFontSetUsingInMemoryFontData m appFontResources documentFonts).1).dwriteFactory.registeredLoaders
      = m.dwriteFactory.registeredLoaders ++ [m.dwriteFactory.nextLoaderId] ∧
    ((CreateFontSetUsingInMemoryFontData m appFontResources documentFonts).1).inMemoryFontFileLoader
      = some m.dwriteFactory.nextLoaderId := by
  cases h1 : addFontFiles [] appFontResources with
  | error e => simp [CreateFontSetUsingInMemoryFontData, h1]
  | ok b1 =>
    cases h2 : addFontFiles b1 documentFonts with
    | error e => simp [CreateFontSetUsingInMemoryFontData, h1, h2]
    | ok b2 => simp [CreateFontSetUsingInMemoryFontData, h1, h2]

/-- C3: when some source buffer is malformed, the build fails with
DWRITE_E_FILEFORMAT, m_customFontSet is left untouched, and on a
previously unbuilt manager GetFontCount still returns 0 afterwards. -/
theorem build_malformed_source_fails_without_partial_set
    (m : CustomFontSetManager) (appFontResources documentFonts : List MemoryFontInfo)
    (hmal : ∃ fontInfo ∈ appFontResources ++ documentFonts,
        fontInfo.fontData = FontData.malformed) :
    (CreateFontSetUsingInMemoryFontData m appFontResources documentFonts).2
      = some HResultError.fileFormat ∧
    ((CreateFontSetUsingInMemoryFontData m appFontResources documentFonts).1).customFontSet
      = m.customFontSet ∧
    (m.customFontSet = none →
      GetFontCount (CreateFontSetUsingInMemoryFontData m appFontResources documentFonts).1
        = 0) := by
  obtain ⟨fontInfo, hmem, hinfo⟩ := hmal
  rcases List.mem_append.mp hmem with hA | hD
  · have herr := addFontFiles_error_of_malformed appFontResources
      ⟨fontInfo, hA, hinfo⟩ []
    refine ⟨?_, ?_, ?_⟩
    · simp [CreateFontSetUsingInMemoryFontData, herr]
    · simp [CreateFontSetUsingInMemoryFontData, herr]
    · intro hnone
      simp [CreateFontSetUsingInMemoryFontData, herr, GetFontCount, hnone]
  · by_cases hAany : ∃ fontInfo2 ∈ appFontResources,
        fontInfo2.fontData = FontData.malformed
    · have herr := addFontFiles_error_of_malformed appFontResources hAany []
      refine ⟨?_, ?_, ?_⟩
      · simp [CreateFontSetUsingInMemoryFontData, herr]
      · simp [CreateFontSetUsingInMemoryFontData, herr]
      · intro hnone
        simp [CreateFontSetUsingInMemoryFontData, herr, GetFontCount, hnone]
    · have hclean : ∀ fontInfo2 ∈ appFontResources,
          fontInfo2.fontData ≠ FontData.malformed := by
        intro y hy hc
        exact hAany ⟨y, hy, hc⟩
      obtain ⟨b1, hb1⟩ := addFontFiles_ok_of_wellFormed appFontResources hclean []
      have herr2 := addFontFiles_error_of_malformed documentFonts
        ⟨fontInfo, hD, hinfo⟩ b1
      refine ⟨?_, ?_, ?_⟩
      · simp [CreateFontSetUsingInMemoryFontData, hb1, herr2]
      · simp [CreateFontSetUsingInMemoryFontData, hb1, herr2]
      · intro hnone
        simp [CreateFontSetUsingInMemoryFontData, hb1, herr2, GetFontCount, hnone]

/-- Witness for C3: one malformed app resource buffer on a fresh
manager. -/
theorem build_malformed_source_fails_witness :
    (CreateFontSetUsingInMemoryFontData CustomFontSetManager.mk0
        [{ fontData := FontData.malformed }] []).2 = some HResultError.fileFormat ∧
    ((CreateFontSetUsingInMemoryFontData CustomFontSetManager.mk0
        [{ fontData := FontData.malformed }] []).1).customFontSet
      = CustomFontSetManager.mk0.customFontSet ∧
    (CustomFontSetManager.mk0.customFontSet = none →
      GetFontCount (CreateFontSetUsingInMemoryFontData CustomFontSetManager.mk0
        [{ fontData := FontData.malformed }] []).1 = 0) :=
  build_malformed_source_fails_without_partial_set CustomFontSetManager.mk0
    [{ fontData := FontData.malformed }] []
    ⟨{ fontData := FontData.malformed }, by simp, rfl⟩

/-- C4: on a built font set, CustomFontSetHasRemoteFonts returns true
exactly when some entry's data is not local, returns false when every
entry is local, and in particular returns false on any font set produced
by a successful in-memory build. -/
theorem customFontSetHasRemoteFonts_iff (m : CustomFontSetManager) (fs : FontSet)
    (hset : m.customFontSet = some fs) :
    (CustomFontSetHasRemoteFonts m = Except.ok true ↔
      ∃ r ∈ fs.faces, r.locality ≠ DWRITE_LOCALITY.LOCAL) ∧
    ((∀ r ∈ fs.faces, r.locality = DWRITE_LOCALITY.LOCAL) →
      CustomFontSetHasRemoteFonts m = Except.ok false) ∧
    (∀ (m0 m1 : CustomFontSetManager) (app doc : List MemoryFontInfo),
      CreateFontSetUsingInMemoryFontData m0 app doc = (m1, none) →
      CustomFontSetHasRemoteFonts m1 = Except.ok false) := by
  refine ⟨?_, ?_, ?_⟩
  · simp only [CustomFontSetHasRemoteFonts, hset, Except.ok.injEq]
    exact hasRemoteFontsLoop_eq_true_iff fs.faces
  · intro hloc
    simp only [CustomFontSetHasRemoteFonts, hset, Except.ok.injEq]
    have hne : ¬ hasRemoteFontsLoop fs.faces = true := by
      rw [hasRemoteFontsLoop_eq_true_iff fs.faces]
      rintro ⟨r, hr, hrl⟩
      exact hrl (hloc r hr)
    exact Bool.not_eq_true _ ▸ hne
  · intro m0 m1 app doc hbuild
    have hcs := createFontSet_ok_customFontSet m0 m1 app doc hbuild
    simp only [CustomFontSetHasRemoteFonts, hcs, Except.ok.injEq]
    have hne : ¬ hasRemoteFontsLoop (sourceFaces app ++ sourceFaces doc) = true := by
      rw [hasRemoteFontsLoop_eq_true_iff]
      rintro ⟨r, hr, hrl⟩
      rcases List.mem_append.mp hr with h | h
      · exact hrl (sourceFaces_local app r h)
      · exact hrl (sourceFaces_local doc r h)
    exact Bool.not_eq_true _ ▸ hne

/-- Witness for C4: the singleton built manager, whose one entry is
local. -/
theorem customFontSetHasRemoteFonts_iff_witness :
    CustomFontSetHasRemoteFonts builtSingletonManager = Except.ok false ∧
    ¬ (CustomFontSetHasRemoteFonts builtSingletonManager = Except.ok true) := by
  have hmain := customFontSetHasRemoteFonts_iff builtSingletonManager
    { faces := [sampleLocalFace] } rfl
  constructor
  · exact hmain.2.1 (by decide)
  · intro htrue
    obtain ⟨r, hr, hrl⟩ := hmain.1.mp htrue
    simp only [List.mem_singleton] at hr
    exact hrl (hr ▸ (by decide : sampleLocalFace.locality = DWRITE_LOCALITY.LOCAL))

/-- C5: GetFontCount returns 0 on an unbuilt manager, its result is a
natural number in every state, and a build from empty source lists
succeeds and yields a font set with count 0. -/
theorem getFontCount_unbuilt_and_empty_build (m : CustomFontSetManager)
    (hunbuilt : m.customFontSet = none) :
    GetFontCount m = 0 ∧
    (∀ m2 : CustomFontSetManager, 0 ≤ GetFontCount m2) ∧
    (∀ m0 : CustomFontSetManager,
      (CreateFontSetUsingInMemoryFontData m0 [] []).2 = none ∧
      GetFontCount (CreateFontSetUsingInMemoryFontData m0 [] []).1 = 0) := by
  refine ⟨?_, fun m2 => Nat.zero_le _, fun m0 => ?_⟩
  · simp [GetFontCount, hunbuilt]
  · constructor
    · simp [CreateFontSetUsingInMemoryFontData, addFontFiles]
    · simp [CreateFontSetUsingInMemoryFontData, addFontFiles, GetFontCount,
        FontSet.GetFontCount]

/-- Witness for C5: the freshly constructed manager. -/
theorem getFontCount_unbuilt_witness :
    GetFontCount CustomFontSetManager.mk0 = 0 ∧
    (∀ m2 : CustomFontSetManager, 0 ≤ GetFontCount m2) ∧
    (∀ m0 : CustomFontSetManager,
      (CreateFontSetUsingInMemoryFontData m0 [] []).2 = none ∧
      GetFontCount (CreateFontSetUsingInMemoryFontData m0 [] []).1 = 0) :=
  getFontCount_unbuilt_and_empty_build CustomFontSetManager.mk0 rfl

/-- C8: a successful build passes all app resource buffers to the
builder first, then all document buffers, each list in its given order,
and finalizes that builder content into the immutable font set. -/
theorem build_adds_sources_in_order (m m1 : CustomFontSetManager)
    (app doc : List MemoryFontInfo)
    (h : CreateFontSetUsingInMemoryFontData m app doc = (m1, none)) :
    addFontFiles [] app = Except.ok (sourceFaces app) ∧
    addFontFiles (sourceFaces app) doc
      = Except.ok (sourceFaces app ++ sourceFaces doc) ∧
    m1.customFontSet = some { faces := sourceFaces app ++ sourceFaces doc } := by
  cases h1 : addFontFiles [] app with
  | error e => simp [CreateFontSetUsingInMemoryFontData, h1] at h
  | ok b1 =>
    cases h2 : addFontFiles b1 doc with
    | error e => simp [CreateFontSetUsingInMemoryFontData, h1, h2] at h
    | ok b2 =>
      have hb1 : b1 = sourceFaces app := by simpa using addFontFiles_ok app [] b1 h1
      have hb2 : b2 = sourceFaces app ++ sourceFaces doc := by
        have hr := addFontFiles_ok doc b1 b2 h2
        rw [hr, hb1]
      refine ⟨?_, ?_, createFontSet_ok_customFontSet m m1 app doc h⟩
      · rw [← hb1]
      · rw [← hb2, ← hb1]
        exact h2

/-- Witness for C8: one single-font app resource buffer and one
single-font document buffer on a fresh manager. -/
theorem build_adds_sources_in_order_witness :
    addFontFiles [] [{ fontData := FontData.valid [sampleLocalFace.face] }]
      = Except.ok (sourceFaces [{ fontData := FontData.valid [sampleLocalFace.face] }]) ∧
    addFontFiles (sourceFaces [{ fontData := FontData.valid [sampleLocalFace.face] }])
        [{ fontData := FontData.valid [namelessLocalFace.face] }]
      = Except.ok (sourceFaces [{ fontData := FontData.valid [sampleLocalFace.face] }] ++
          sourceFaces [{ fontData := FontData.valid [namelessLocalFace.face] }]) ∧
    ((CreateFontSetUsingInMemoryFontData CustomFontSetManager.mk0
        [{ fontData := FontData.valid [sampleLocalFace.face] }]
        [{ fontData := FontData.valid [namelessLocalFace.face] }]).1).customFontSet
      = some { faces :=
          sourceFaces [{ fontData := FontData.valid [sampleLocalFace.face] }] ++
          sourceFaces [{ fontData := FontData.valid [namelessLocalFace.face] }] } :=
  build_adds_sources_in_order CustomFontSetManager.mk0
    (CreateFontSetUsingInMemoryFontData CustomFontSetManager.mk0
      [{ fontData := FontData.valid [sampleLocalFace.face] }]
      [{ fontData := FontData.valid [namelessLocalFace.face] }]).1
    [{ fontData := FontData.valid [sampleLocalFace.face] }]
    [{ fontData := FontData.valid [namelessLocalFace.face] }] rfl

/-- C9: the destructor makes no unregistration call and touches nothing
when no loader member was ever set, and when a loader member is set it
issues exactly one unregistration for it, after which a loader that was
registered once is no longer registered with the factory. -/
theorem destructor_releases_loader (m : CustomFontSetManager) :
    (m.inMemoryFontFileLoader = none → destructor m = (m.dwriteFactory, [])) ∧
    (∀ loaderId, m.inMemoryFontFileLoader = some loaderId →
      (destructor m).2 = [DestructEvent.unregisterLoader loaderId] ∧
      (List.count loaderId m.dwriteFactory.registeredLoaders ≤ 1 →
        loaderId ∉ (destructor m).1.registeredLoaders)) := by
  constructor
  · intro h
    simp [destructor, UnregisterFontFileLoader, h]
  · intro loaderId h
    constructor
    · simp [destructor, UnregisterFontFileLoader, h]
    · intro hcount
      simp only [destructor, UnregisterFontFileLoader, h]
      have hz : List.count loaderId
          (m.dwriteFactory.registeredLoaders.erase loaderId) = 0 := by
        rw [List.count_erase_self]
        omega
      exact List.count_eq_zero.mp hz

/-- Witness for C9: the built singleton manager, whose loader 0 is
registered once, and the fresh manager with no loader. -/
theorem destructor_releases_loader_witness :
    destructor CustomFontSetManager.mk0 = (CustomFontSetManager.mk0.dwriteFactory, []) ∧
    (destructor builtSingletonManager).2 = [DestructEvent.unregisterLoader 0] ∧
    0 ∉ (destructor builtSingletonManager).1.registeredLoaders :=
  ⟨(destructor_releases_loader CustomFontSetManager.mk0).1 rfl,
   ((destructor_releases_loader builtSingletonManager).2 0 rfl).1,
   ((destructor_releases_loader builtSingletonManager).2 0 rfl).2 (by decide)⟩

/-- C10: on an unbuilt manager only GetFontCount checks the null
m_customFontSet pointer: it returns 0, while GetFullFontNames,
GetFontDataDetails and CustomFontSetHasRemoteFonts all reach the null
dereference. -/
theorem only_getFontCount_guards_unbuilt (m : CustomFontSetManager)
    (hunbuilt : m.customFontSet = none) (cancellationSignaled : Bool) :
    GetFontCount m = 0 ∧
    GetFullFontNames m = Except.error HResultError.nullDeref ∧
    GetFontDataDetails m cancellationSignaled = Except.error HResultError.nullDeref ∧
    CustomFontSetHasRemoteFonts m = Except.error HResultError.nullDeref := by
  refine ⟨?_, ?_, ?_, ?_⟩ <;>
    simp [GetFontCount, GetFullFontNames, GetPropertyValuesFromFontSet,
      GetFontDataDetails, CustomFontSetHasRemoteFonts, hunbuilt]

/-- Witness for C10: the freshly constructed manager with an unsignaled
handle. -/
theorem only_getFontCount_guards_unbuilt_witness :
    GetFontCount CustomFontSetManager.mk0 = 0 ∧
    GetFullFontNames CustomFontSetManager.mk0 = Except.error HResultError.nullDeref ∧
    GetFontDataDetails CustomFontSetManager.mk0 false
      = Except.error HResultError.nullDeref ∧
    CustomFontSetHasRemoteFonts CustomFontSetManager.mk0
      = Except.error HResultError.nullDeref :=
  only_getFontCount_guards_unbuilt CustomFontSetManager.mk0 rfl false

/-- C6: a successful GetFontDataDetails on a built set of N fonts first
enqueues a download request for every one of the N entries in index
order, only then reads each entry's data in index order, and yields
exactly N report lines, each non-empty and consisting of the entry's
locale-selected full name (or the placeholder built from the index when
the full name is unavailable) followed by the x-height metric. -/
theorem getFontDataDetails_lines_spec (m : CustomFontSetManager) (fs : FontSet)
    (cancellationSignaled : Bool) (trace : List DetailEvent) (lines : List String)
    (hset : m.customFontSet = some fs)
    (hres : GetFontDataDetails m cancellationSignaled = Except.ok (trace, lines)) :
    trace = (List.range fs.GetFontCount).map DetailEvent.enqueueDownload ++
            (List.range fs.GetFontCount).map DetailEvent.readFontData ∧
    lines.length = fs.GetFontCount ∧
    (∀ k r line, fs.faces[k]? = some r → lines[k]? = some line →
      0 < line.length ∧ DetailLineShape k r line) := by
  simp only [GetFontDataDetails, hset] at hres
  cases hdet : detailLinesFrom 0 fs.faces with
  | error e => rw [hdet] at hres; cases hres
  | ok p =>
    obtain ⟨readEvents, resultVector⟩ := p
    rw [hdet] at hres
    simp only [Except.ok.injEq, Prod.mk.injEq] at hres
    obtain ⟨htrace, hlines⟩ := hres
    subst htrace
    subst hlines
    obtain ⟨hevs, hlen, hshape⟩ := detailLinesFrom_ok fs.faces 0 readEvents
      resultVector hdet
    refine ⟨?_, hlen, ?_⟩
    · rw [hevs, enqueueDownloadRequests_eq fs.faces 0]
      simp [FontSet.GetFontCount]
    · intro k r line hk hline
      have hs := hshape k r line hk hline
      rw [Nat.zero_add] at hs
      exact ⟨detailLineShape_pos k r line hs, hs⟩

/-- Witness for C6: the built manager with two local fonts, the second
without full name strings. -/
theorem getFontDataDetails_lines_spec_witness :
    sampleTrace = (List.range fsTwo.GetFontCount).map DetailEvent.enqueueDownload ++
        (List.range fsTwo.GetFontCount).map DetailEvent.readFontData ∧
    sampleLines.length = fsTwo.GetFontCount ∧
    (∀ k r line, fsTwo.faces[k]? = some r → sampleLines[k]? = some line →
      0 < line.length ∧ DetailLineShape k r line) :=
  getFontDataDetails_lines_spec builtTwoFontManager fsTwo false
    sampleTrace sampleLines rfl rfl

/-- C7: on a built font set, GetFullFontNames returns a duplicate-free
list even when entries share a full name, and every returned string is
the en-US-preferred (default-locale fallback) full name of some entry. -/
theorem getFullFontNames_nodup_spec (m : CustomFontSetManager) (fs : FontSet)
    (names : List String) (hset : m.customFontSet = some fs)
    (hres : GetFullFontNames m = Except.ok names) :
    names.Nodup ∧
    ∀ s ∈ names, ∃ r ∈ fs.faces, ∃ ls, r.face.fullNameStrings = some ls ∧
      selectPropertyValue ls ("en-US") = some s := by
  simp only [GetFullFontNames, GetPropertyValuesFromFontSet, hset,
    Except.ok.injEq] at hres
  subst hres
  refine ⟨List.nodup_dedup _, ?_⟩
  intro s hs
  have hmem := List.mem_dedup.mp hs
  obtain ⟨r, hr, hval⟩ := List.mem_filterMap.mp hmem
  obtain ⟨ls, hls, hsel⟩ := Option.bind_eq_some.mp hval
  exact ⟨r, hr, ls, hls, hsel⟩

/-- Witness for C7: a built manager with two entries sharing the full
name of sampleLocalFace. -/
theorem getFullFontNames_nodup_witness :
    (["Sample Font"] : List String).Nodup ∧
    ∀ s ∈ (["Sample Font"] : List String), ∃ r ∈ fsShared.faces, ∃ ls,
      r.face.fullNameStrings = some ls ∧
      selectPropertyValue ls ("en-US") = some s :=
  getFullFontNames_nodup_spec builtSharedNameManager fsShared
    ["Sample Font"] rfl rfl

end DWriteCustomFontSets
